import Mathlib

/-!
Verification of the Just-Memory schema tools.

The repository has two scripts operating on one SQLite store:

* `migrate_db.py` (`migrate`): takes a snapshot of the table names, then for
  each table in the fixed list `tables_needing_project_id`, in order, checks
  `PRAGMA table_info`; if the column `project_id` is missing it executes
  `ALTER TABLE t ADD COLUMN project_id TEXT DEFAULT 'global'` and commits,
  otherwise it reports the column as present; a table missing from the
  snapshot is reported as absent. `conn.close()` is the last statement and
  runs only if no statement raised.

* `check_schema.py` (`check_schema`): lists the tables, reads every table's
  `PRAGMA table_info`, then executes `SELECT COUNT(*) FROM memories`, and
  finally `conn.close()`; an engine error (e.g. `memories` missing) raises
  before the close.

The store is embedded shallowly: a list of tables, each a list of column
descriptors plus rows of cell values aligned with the columns, together with
the set of (table, column) additions the underlying engine would refuse
(the `SchemaChangeRejected` environment condition).  Fallible engine calls
return `Except`; an uncaught exception in a script is an `aborted` result
that records the committed state at the point of the raise and the fact
that the close was skipped.
-/

namespace JustMemory

/-- A column descriptor as reported by the store catalog (`PRAGMA table_info`):
name, declared type, NOT NULL flag, default value. -/
structure Column where
  name : String
  ctype : String
  notnull : Bool
  dflt : Option String
deriving DecidableEq, Repr

/-- A table: its name, its columns in declaration order, and its rows; each
row is the list of cell values aligned with the columns (`none` is SQL NULL). -/
structure Table where
  name : String
  cols : List Column
  rows : List (List (Option String))
deriving DecidableEq, Repr

/-- The persistent store: its tables, plus the (table, column) additions the
underlying engine would refuse — the `SchemaChangeRejected` condition (type
conflict, reserved name, ...), an environment fact outside the scripts. -/
structure Store where
  tables : List Table
  rejects : List (String × String)
deriving DecidableEq, Repr

/-- `SELECT name FROM sqlite_master WHERE type='table'`: the catalog's table
names, in catalog order. -/
def listTables (s : Store) : List String :=
  s.tables.map (fun tb => tb.name)

/-- Look up a table by name (first match, as the engine resolves names). -/
def findTable (s : Store) (t : String) : Option Table :=
  s.tables.find? (fun tb => tb.name = t)

/-- `PRAGMA table_info(t)`: the column descriptors of `t`; the empty list if
`t` does not exist (the pragma yields no rows rather than an error). -/
def pragmaTableInfo (s : Store) (t : String) : List Column :=
  match findTable s t with
  | some tb => tb.cols
  | none => []

/-- The column names of table `t`, as `migrate_db.py` extracts them
(`[col[1] for col in c.fetchall()]`). -/
def colNames (s : Store) (t : String) : List String :=
  (pragmaTableInfo s t).map (fun c => c.name)

/-- The stored rows of table `t` (empty if `t` does not exist). -/
def rowsOf (s : Store) (t : String) : List (List (Option String)) :=
  match findTable s t with
  | some tb => tb.rows
  | none => []

/-- The row count of table `t`. -/
def numRows (s : Store) (t : String) : Nat :=
  (rowsOf s t).length

/-- Errors surfaced by the engine to the scripts: `no such table` on a read
(`NotFoundError`), and refusal of a schema change (`SchemaChangeRejected`). -/
inductive MigErr where
  | notFound
  | schemaChangeRejected
deriving DecidableEq, Repr

/-- `SELECT COUNT(*) FROM t`: the row count of an existing table; the
engine's `no such table` error otherwise. -/
def countRowsStmt (s : Store) (t : String) : Except MigErr Nat :=
  match findTable s t with
  | some tb => Except.ok tb.rows.length
  | none => Except.error MigErr.notFound

/-- The column added by the migration:
`project_id TEXT DEFAULT 'global'` (nullable, as an un-annotated added
column is). -/
def projectIdCol : Column :=
  { name := "project_id", ctype := "TEXT", notnull := false, dflt := some "global" }

/-- Effect of a committed `ALTER TABLE ... ADD COLUMN c` on one table: the
column is appended to the schema, and every pre-existing row reads back the
column's default value. -/
def addColumnToTable (tb : Table) (c : Column) : Table :=
  { tb with cols := tb.cols ++ [c], rows := tb.rows.map (fun r => r ++ [c.dflt]) }

/-- The successful effect of `ALTER TABLE t ADD COLUMN c` on the store. -/
def commitAddColumn (s : Store) (t : String) (c : Column) : Store :=
  { s with tables := s.tables.map (fun tb => if tb.name = t then addColumnToTable tb c else tb) }

/-- `c.execute("ALTER TABLE t ADD COLUMN ...")`: the fallible engine call;
the engine may refuse the addition (`SchemaChangeRejected`). -/
def alterAddColumn (s : Store) (t : String) (c : Column) : Except MigErr Store :=
  if (t, c.name) ∈ s.rejects then Except.error MigErr.schemaChangeRejected
  else Except.ok (commitAddColumn s t c)

/-- Per-requirement outcome of the migration executor. -/
inductive Outcome where
  | added
  | alreadyPresent
  | tableAbsent
deriving DecidableEq, Repr

/-- The body of the `for table in tables_needing_project_id` loop in
`migrate_db.py`, for one table: membership in the start-of-run snapshot of
table names decides absence; otherwise `PRAGMA table_info` is read and the
`ALTER TABLE` is executed (and committed) exactly when `project_id` is not
among the column names. -/
def migrateStep (snapshot : List String) (s : Store) (t : String) :
    Except MigErr (Outcome × Store) :=
  if t ∈ snapshot then
    if "project_id" ∉ colNames s t then
      match alterAddColumn s t projectIdCol with
      | Except.ok s' => Except.ok (Outcome.added, s')
      | Except.error e => Except.error e
    else Except.ok (Outcome.alreadyPresent, s)
  else Except.ok (Outcome.tableAbsent, s)

/-- Result of a whole script run.  `ok` means the script ran to completion
(so its final `conn.close()` executed); `aborted` means an engine error
propagated out of the script, recording the outcomes emitted before the
raise, the store state (with all already-committed changes), and the error;
on that path `conn.close()` is never reached. -/
inductive MigResult where
  | ok (outcomes : List Outcome) (store : Store)
  | aborted (outcomes : List Outcome) (store : Store) (err : MigErr)
deriving DecidableEq, Repr

/-- The per-requirement outcomes a run emitted before completing or
aborting. -/
def MigResult.outcomes : MigResult → List Outcome
  | MigResult.ok os _ => os
  | MigResult.aborted os _ _ => os

/-- The store state when the run ended (all committed changes included). -/
def MigResult.finalStore : MigResult → Store
  | MigResult.ok _ s => s
  | MigResult.aborted _ s _ => s

/-- Whether the run reached its final `conn.close()`: `migrate_db.py` closes
the connection only as the last statement of a normal completion; an
uncaught exception skips it. -/
def MigResult.connClosed : MigResult → Bool
  | MigResult.ok _ _ => true
  | MigResult.aborted _ _ _ => false

/-- The `for` loop of `migrate_db.py` over the remaining requirement tables,
threading the store state (each successful `ALTER` is committed before the
next table is considered) and stopping, exception-like, at the first engine
error. -/
def migrateLoop (snapshot : List String) : Store → List String → MigResult
  | s, [] => MigResult.ok [] s
  | s, t :: ts =>
    match migrateStep snapshot s t with
    | Except.ok (o, s') =>
      match migrateLoop snapshot s' ts with
      | MigResult.ok os s'' => MigResult.ok (o :: os) s''
      | MigResult.aborted os s'' e => MigResult.aborted (o :: os) s'' e
    | Except.error e => MigResult.aborted [] s e

/-- The fixed requirement list of `migrate_db.py`: the tables that need
`project_id`. -/
def tables_needing_project_id : List String :=
  ["memories", "entities", "edges", "scratchpad", "entity_relations"]

/-- `migrate()` of `migrate_db.py`: snapshot the table names, then process
the fixed requirement list in order. -/
def migrate (s : Store) : MigResult :=
  migrateLoop (listTables s) s tables_needing_project_id

/-- Result of a `check_schema.py` run: on completion, the table list, each
table's column descriptors, and the row count of `memories`; `aborted`
when an engine error propagated (then `conn.close()` was skipped). -/
inductive CheckResult where
  | ok (tables : List String) (schemas : List (String × List Column)) (memories : Nat)
  | aborted (err : MigErr)
deriving DecidableEq, Repr

/-- Whether the `check_schema.py` run reached its final `conn.close()`. -/
def CheckResult.connClosed : CheckResult → Bool
  | CheckResult.ok _ _ _ => true
  | CheckResult.aborted _ => false

/-- `check_schema.py`: list the tables, read `PRAGMA table_info` for each
(never an error: the names come from the catalog), then run
`SELECT COUNT(*) FROM memories`, whose `no such table` error propagates. -/
def check_schema (s : Store) : CheckResult :=
  let tables := listTables s
  let schemas := tables.map (fun t => (t, pragmaTableInfo s t))
  match countRowsStmt s "memories" with
  | Except.ok n => CheckResult.ok tables schemas n
  | Except.error e => CheckResult.aborted e

/-- Prepend a per-requirement outcome to a run result (how the loop extends
the record of the requirements already processed). -/
def prependOutcome (o : Outcome) : MigResult → MigResult
  | MigResult.ok os s => MigResult.ok (o :: os) s
  | MigResult.aborted os s e => MigResult.aborted (o :: os) s e

/-- Reading one cell: the value of column `cname` in row `j` of table `t`
(`none` when the table, the column or the row does not exist). -/
def readCell (s : Store) (t : String) (j : Nat) (cname : String) : Option (Option String) :=
  match findTable s t with
  | none => none
  | some tb =>
    match tb.cols.findIdx? (fun c => c.name = cname) with
    | none => none
    | some i =>
      match tb.rows.get? j with
      | none => none
      | some r => r.get? i

/-- Well-formedness of a store: every row has one cell per column. -/
def Store.WF (s : Store) : Prop :=
  ∀ tb ∈ s.tables, ∀ r ∈ tb.rows, r.length = tb.cols.length

/-- Frame relation between two store states: same table names, same
environment, every table's column list extended only at the end, and every
table's rows in bijection with the old ones, each old row a prefix of its
successor (so nothing existing was altered, removed or deleted). -/
def SchemaFrame (s s' : Store) : Prop :=
  listTables s' = listTables s ∧ s'.rejects = s.rejects ∧
  (∀ u, pragmaTableInfo s u <+: pragmaTableInfo s' u) ∧
  (∀ u, List.Forall₂ (fun r r' => r <+: r') (rowsOf s u) (rowsOf s' u))

/-- Agreement of two stores on everything the migration's decisions read:
the table-name catalog, every table's column descriptors, and the engine's
rejection behaviour — row contents deliberately excluded. -/
def SchemaEq (s₁ s₂ : Store) : Prop :=
  listTables s₁ = listTables s₂ ∧ s₁.rejects = s₂.rejects ∧
  ∀ t, pragmaTableInfo s₁ t = pragmaTableInfo s₂ t

/-! Concrete stores used to witness the theorems. -/

/-- An `id INTEGER NOT NULL` column, as the application's tables carry. -/
def idCol : Column :=
  { name := "id", ctype := "INTEGER", notnull := true, dflt := none }

/-- A `memories` table without `project_id`, holding one row. -/
def memoriesNoPid : Table :=
  { name := "memories", cols := [idCol], rows := [[some "1"]] }

/-- An `entities` table without `project_id`, empty. -/
def entitiesNoPid : Table :=
  { name := "entities", cols := [idCol], rows := [] }

/-- A store with `memories` and `entities`, no engine rejections. -/
def demoStore : Store :=
  { tables := [memoriesNoPid, entitiesNoPid], rejects := [] }

/-- A store whose engine refuses to add `project_id` to `memories`, while
`entities` also still lacks the column. -/
def rejectStore : Store :=
  { tables := [memoriesNoPid, entitiesNoPid], rejects := [("memories", "project_id")] }

/-- A store without a `memories` table. -/
def noMemoriesStore : Store :=
  { tables := [entitiesNoPid], rejects := [] }

/-- A store with `memories` (3 rows) and `edges` (0 rows). -/
def scenarioDStore : Store :=
  { tables :=
      [ { name := "memories", cols := [idCol], rows := [[some "1"], [some "2"], [some "3"]] },
        { name := "edges", cols := [idCol], rows := [] } ],
    rejects := [] }

/-- A column named `project_id` whose type, nullability and default all
differ from the migration's declared ones. -/
def weirdPidCol : Column :=
  { name := "project_id", ctype := "INTEGER", notnull := true, dflt := some "7" }

/-- An `entities` table already carrying the oddly-typed `project_id`. -/
def weirdTable : Table :=
  { name := "entities", cols := [idCol, weirdPidCol], rows := [] }

/-- A store whose `entities` table has a `project_id` of the wrong shape. -/
def weirdStore : Store :=
  { tables := [weirdTable], rejects := [] }

/-- A `memories`-only store with one row. -/
def storeRowsA : Store :=
  { tables := [{ name := "memories", cols := [idCol], rows := [[some "1"]] }], rejects := [] }

/-- A `memories`-only store with the same schema as `storeRowsA` but
different row contents. -/
def storeRowsB : Store :=
  { tables := [{ name := "memories", cols := [idCol], rows := [[some "2"], [some "3"]] }], rejects := [] }

/-! Basic lemmas about catalog lookup. -/

lemma findTable_name {s : Store} {t : String} {tb : Table} (h : findTable s t = some tb) :
    tb.name = t := by
  have := List.find?_some h
  simpa using this

lemma findTable_mem {s : Store} {t : String} {tb : Table} (h : findTable s t = some tb) :
    tb ∈ s.tables :=
  List.mem_of_find?_eq_some h

lemma findTable_eq_none_iff {s : Store} {t : String} :
    findTable s t = none ↔ t ∉ listTables s := by
  unfold findTable listTables
  rw [List.find?_eq_none]
  simp

lemma mem_listTables_of_findTable {s : Store} {t : String} {tb : Table}
    (h : findTable s t = some tb) : t ∈ listTables s := by
  have hm := findTable_mem h
  have hn := findTable_name h
  unfold listTables
  exact hn ▸ List.mem_map_of_mem _ hm

lemma findTable_isSome_of_mem {s : Store} {t : String} (h : t ∈ listTables s) :
    ∃ tb, findTable s t = some tb := by
  cases hf : findTable s t with
  | none => exact absurd h (findTable_eq_none_iff.mp hf)
  | some tb => exact ⟨tb, rfl⟩

/-! Lemmas about the effect of a committed column addition. -/

lemma addColumnToTable_name (tb : Table) (c : Column) :
    (addColumnToTable tb c).name = tb.name := rfl

lemma findTable_commit (s : Store) (t u : String) (c : Column) :
    findTable (commitAddColumn s t c) u
      = (findTable s u).map (fun tb => if tb.name = t then addColumnToTable tb c else tb) := by
  unfold findTable commitAddColumn
  rw [List.find?_map]
  have hp : ((fun tb : Table => decide (tb.name = u)) ∘
      fun tb : Table => if tb.name = t then addColumnToTable tb c else tb)
      = fun tb : Table => decide (tb.name = u) := by
    funext tb
    by_cases h : tb.name = t <;> simp [h, addColumnToTable]
  rw [hp]

lemma listTables_commit (s : Store) (t : String) (c : Column) :
    listTables (commitAddColumn s t c) = listTables s := by
  unfold listTables commitAddColumn
  rw [List.map_map]
  congr 1
  funext tb
  by_cases h : tb.name = t <;> simp [h, addColumnToTable]

lemma rejects_commit (s : Store) (t : String) (c : Column) :
    (commitAddColumn s t c).rejects = s.rejects := rfl

lemma pragmaTableInfo_commit (s : Store) (t u : String) (c : Column) :
    pragmaTableInfo (commitAddColumn s t c) u =
      if u = t ∧ u ∈ listTables s then pragmaTableInfo s u ++ [c]
      else pragmaTableInfo s u := by
  unfold pragmaTableInfo
  rw [findTable_commit]
  cases hf : findTable s u with
  | none =>
    have hnot := findTable_eq_none_iff.mp hf
    simp [hnot]
  | some tb =>
    have hn : tb.name = u := findTable_name hf
    have hmem : u ∈ listTables s := mem_listTables_of_findTable hf
    by_cases h : u = t
    · subst h
      simp [hn, hmem, addColumnToTable]
    · have hne : ¬ tb.name = t := by rw [hn]; exact h
      simp [hne, h]

lemma rowsOf_commit (s : Store) (t u : String) (c : Column) :
    rowsOf (commitAddColumn s t c) u =
      if u = t ∧ u ∈ listTables s then (rowsOf s u).map (fun r => r ++ [c.dflt])
      else rowsOf s u := by
  unfold rowsOf
  rw [findTable_commit]
  cases hf : findTable s u with
  | none =>
    have hnot := findTable_eq_none_iff.mp hf
    simp [hnot]
  | some tb =>
    have hn : tb.name = u := findTable_name hf
    have hmem : u ∈ listTables s := mem_listTables_of_findTable hf
    by_cases h : u = t
    · subst h
      simp [hn, hmem, addColumnToTable]
    · have hne : ¬ tb.name = t := by rw [hn]; exact h
      simp [hne, h]

lemma colNames_commit (s : Store) (t u : String) (c : Column) :
    colNames (commitAddColumn s t c) u =
      if u = t ∧ u ∈ listTables s then colNames s u ++ [c.name]
      else colNames s u := by
  unfold colNames
  rw [pragmaTableInfo_commit]
  split <;> simp

/-! Characterization of one loop body execution. -/

lemma migrateStep_absent {snapshot : List String} {s : Store} {t : String}
    (h : t ∉ snapshot) :
    migrateStep snapshot s t = Except.ok (Outcome.tableAbsent, s) := by
  simp [migrateStep, h]

lemma migrateStep_present {snapshot : List String} {s : Store} {t : String}
    (h1 : t ∈ snapshot) (h2 : "project_id" ∈ colNames s t) :
    migrateStep snapshot s t = Except.ok (Outcome.alreadyPresent, s) := by
  simp [migrateStep, h1, h2]

lemma migrateStep_add {snapshot : List String} {s : Store} {t : String}
    (h1 : t ∈ snapshot) (h2 : "project_id" ∉ colNames s t)
    (h3 : (t, "project_id") ∉ s.rejects) :
    migrateStep snapshot s t = Except.ok (Outcome.added, commitAddColumn s t projectIdCol) := by
  simp [migrateStep, h1, h2, alterAddColumn, projectIdCol, h3]

lemma migrateStep_reject {snapshot : List String} {s : Store} {t : String}
    (h1 : t ∈ snapshot) (h2 : "project_id" ∉ colNames s t)
    (h3 : (t, "project_id") ∈ s.rejects) :
    migrateStep snapshot s t = Except.error MigErr.schemaChangeRejected := by
  simp [migrateStep, h1, h2, alterAddColumn, projectIdCol, h3]

lemma migrateStep_store_cases {snapshot : List String} {s : Store} {t : String}
    {o : Outcome} {s' : Store} (h : migrateStep snapshot s t = Except.ok (o, s')) :
    s' = s ∨ s' = commitAddColumn s t projectIdCol := by
  by_cases h1 : t ∈ snapshot
  · by_cases h2 : "project_id" ∈ colNames s t
    · rw [migrateStep_present h1 h2] at h
      simp only [Except.ok.injEq, Prod.mk.injEq] at h
      exact Or.inl h.2.symm
    · by_cases h3 : (t, "project_id") ∈ s.rejects
      · rw [migrateStep_reject h1 h2 h3] at h
        cases h
      · rw [migrateStep_add h1 h2 h3] at h
        simp only [Except.ok.injEq, Prod.mk.injEq] at h
        exact Or.inr h.2.symm
  · rw [migrateStep_absent h1] at h
    simp only [Except.ok.injEq, Prod.mk.injEq] at h
    exact Or.inl h.2.symm

lemma migrateStep_error_cases {snapshot : List String} {s : Store} {t : String}
    {e : MigErr} (h : migrateStep snapshot s t = Except.error e) :
    e = MigErr.schemaChangeRejected ∧ t ∈ snapshot ∧ "project_id" ∉ colNames s t ∧
      (t, "project_id") ∈ s.rejects := by
  by_cases h1 : t ∈ snapshot
  · by_cases h2 : "project_id" ∈ colNames s t
    · rw [migrateStep_present h1 h2] at h; cases h
    · by_cases h3 : (t, "project_id") ∈ s.rejects
      · rw [migrateStep_reject h1 h2 h3] at h
        simp only [Except.error.injEq] at h
        exact ⟨h.symm, h1, h2, h3⟩
      · rw [migrateStep_add h1 h2 h3] at h; cases h
  · rw [migrateStep_absent h1] at h; cases h

/-! Unfolding the loop one requirement at a time. -/

lemma prependOutcome_finalStore (o : Outcome) (r : MigResult) :
    (prependOutcome o r).finalStore = r.finalStore := by
  cases r <;> rfl

lemma prependOutcome_outcomes (o : Outcome) (r : MigResult) :
    (prependOutcome o r).outcomes = o :: r.outcomes := by
  cases r <;> rfl

lemma prependOutcome_connClosed (o : Outcome) (r : MigResult) :
    (prependOutcome o r).connClosed = r.connClosed := by
  cases r <;> rfl

lemma migrateLoop_nil (snapshot : List String) (s : Store) :
    migrateLoop snapshot s [] = MigResult.ok [] s := rfl

lemma migrateLoop_cons_ok {snapshot : List String} {s : Store} {t : String}
    {o : Outcome} {s' : Store} (ts : List String)
    (h : migrateStep snapshot s t = Except.ok (o, s')) :
    migrateLoop snapshot s (t :: ts) = prependOutcome o (migrateLoop snapshot s' ts) := by
  cases hrec : migrateLoop snapshot s' ts <;>
    simp [migrateLoop, h, hrec, prependOutcome]

lemma migrateLoop_cons_error {snapshot : List String} {s : Store} {t : String}
    {e : MigErr} (ts : List String)
    (h : migrateStep snapshot s t = Except.error e) :
    migrateLoop snapshot s (t :: ts) = MigResult.aborted [] s e := by
  rw [migrateLoop, h]

/-! The frame relation: reflexive, transitive, and respected by every step
of the loop. -/

lemma forall₂_prefix_trans {a b c : List (List (Option String))}
    (h1 : List.Forall₂ (fun r r' => r <+: r') a b)
    (h2 : List.Forall₂ (fun r r' => r <+: r') b c) :
    List.Forall₂ (fun r r' => r <+: r') a c := by
  induction h1 generalizing c with
  | nil =>
    cases h2
    exact List.Forall₂.nil
  | cons hh _ ih =>
    cases h2 with
    | cons hh2 ht2 => exact List.Forall₂.cons (hh.trans hh2) (ih ht2)

lemma schemaFrame_refl (s : Store) : SchemaFrame s s := by
  refine ⟨rfl, rfl, fun u => List.prefix_rfl, fun u => ?_⟩
  rw [List.forall₂_same]
  intro x _
  exact List.prefix_rfl

lemma schemaFrame_trans {s₁ s₂ s₃ : Store}
    (h1 : SchemaFrame s₁ s₂) (h2 : SchemaFrame s₂ s₃) : SchemaFrame s₁ s₃ := by
  obtain ⟨hT1, hR1, hC1, hW1⟩ := h1
  obtain ⟨hT2, hR2, hC2, hW2⟩ := h2
  exact ⟨hT2.trans hT1, hR2.trans hR1,
    fun u => (hC1 u).trans (hC2 u),
    fun u => forall₂_prefix_trans (hW1 u) (hW2 u)⟩

lemma schemaFrame_commit (s : Store) (t : String) (c : Column) :
    SchemaFrame s (commitAddColumn s t c) := by
  refine ⟨listTables_commit s t c, rfl, fun u => ?_, fun u => ?_⟩
  · rw [pragmaTableInfo_commit]
    split
    · exact List.prefix_append _ _
    · exact List.prefix_rfl
  · rw [rowsOf_commit]
    split
    · rw [List.forall₂_map_right_iff, List.forall₂_same]
      intro r _
      exact List.prefix_append r [c.dflt]
    · rw [List.forall₂_same]
      intro x _
      exact List.prefix_rfl

lemma schemaFrame_step {snapshot : List String} {s : Store} {t : String}
    {o : Outcome} {s' : Store} (h : migrateStep snapshot s t = Except.ok (o, s')) :
    SchemaFrame s s' := by
  rcases migrateStep_store_cases h with rfl | rfl
  · exact schemaFrame_refl _
  · exact schemaFrame_commit _ _ _

lemma schemaFrame_loop (snapshot : List String) (s : Store) (L : List String) :
    SchemaFrame s ((migrateLoop snapshot s L).finalStore) := by
  induction L generalizing s with
  | nil => exact schemaFrame_refl _
  | cons t ts ih =>
    cases hstep : migrateStep snapshot s t with
    | error e =>
      rw [migrateLoop_cons_error ts hstep]
      exact schemaFrame_refl s
    | ok p =>
      obtain ⟨o, s'⟩ := p
      rw [migrateLoop_cons_ok ts hstep, prependOutcome_finalStore]
      exact schemaFrame_trans (schemaFrame_step hstep) (ih s')

/-- Membership in a table's column names only grows along the frame
relation. -/
lemma colNames_subset_of_frame {s s' : Store} (h : SchemaFrame s s') (u : String) :
    colNames s u ⊆ colNames s' u := by
  intro x hx
  unfold colNames at *
  exact ((h.2.2.1 u).sublist.map (fun c => c.name)).subset hx

/-! Tables other than the one a step acts on are untouched. -/

lemma migrateStep_findTable_other {snapshot : List String} {s : Store} {u : String}
    {o : Outcome} {s' : Store} (h : migrateStep snapshot s u = Except.ok (o, s'))
    {t : String} (hne : t ≠ u) : findTable s' t = findTable s t := by
  rcases migrateStep_store_cases h with rfl | rfl
  · rfl
  · rw [findTable_commit]
    cases hf : findTable s t with
    | none => rfl
    | some tb =>
      have hn := findTable_name hf
      have hnu : ¬ tb.name = u := by rw [hn]; exact hne
      simp [hnu]

lemma migrateLoop_findTable_notmem {snapshot : List String} {t : String} (L : List String) :
    t ∉ L → ∀ s : Store,
      findTable ((migrateLoop snapshot s L).finalStore) t = findTable s t := by
  induction L with
  | nil =>
    intro _ s
    rfl
  | cons u ts ih =>
    intro hnot s
    have hne : t ≠ u := by
      intro he
      exact hnot (he ▸ List.mem_cons_self u ts)
    have hts : t ∉ ts := fun hm => hnot (List.mem_cons_of_mem u hm)
    cases hstep : migrateStep snapshot s u with
    | error e =>
      rw [migrateLoop_cons_error ts hstep]
      rfl
    | ok p =>
      obtain ⟨o, s'⟩ := p
      rw [migrateLoop_cons_ok ts hstep, prependOutcome_finalStore, ih hts s',
        migrateStep_findTable_other hstep hne]

/-- A table that already carries a column named `project_id` is never
touched by the rest of the run. -/
lemma migrateLoop_findTable_present {snapshot : List String} {t : String} (L : List String) :
    ∀ s : Store, "project_id" ∈ colNames s t →
      findTable ((migrateLoop snapshot s L).finalStore) t = findTable s t := by
  induction L with
  | nil =>
    intro s _
    rfl
  | cons u ts ih =>
    intro s h
    by_cases hu : u ∈ snapshot
    · by_cases hcol : "project_id" ∈ colNames s u
      · rw [migrateLoop_cons_ok ts (migrateStep_present hu hcol), prependOutcome_finalStore]
        exact ih s h
      · have hne : t ≠ u := by
          intro he
          exact hcol (he ▸ h)
        by_cases hrej : (u, "project_id") ∈ s.rejects
        · rw [migrateLoop_cons_error ts (migrateStep_reject hu hcol hrej)]
          rfl
        · have hstep := migrateStep_add hu hcol hrej
          have hft : findTable (commitAddColumn s u projectIdCol) t = findTable s t :=
            migrateStep_findTable_other hstep hne
          have hcn : colNames (commitAddColumn s u projectIdCol) t = colNames s t := by
            unfold colNames pragmaTableInfo
            rw [hft]
          rw [migrateLoop_cons_ok ts hstep, prependOutcome_finalStore,
            ih (commitAddColumn s u projectIdCol) (by rw [hcn]; exact h), hft]
    · rw [migrateLoop_cons_ok ts (migrateStep_absent hu), prependOutcome_finalStore]
      exact ih s h

/-! Idempotence infrastructure. -/

/-- After a run that completed normally, every requirement table is either
outside the snapshot or already carries `project_id`. -/
lemma migrateLoop_ok_satisfied {snapshot : List String} (L : List String) :
    ∀ (s : Store) (os : List Outcome) (s' : Store),
      snapshot = listTables s →
      migrateLoop snapshot s L = MigResult.ok os s' →
      ∀ t ∈ L, t ∉ snapshot ∨ "project_id" ∈ colNames s' t := by
  induction L with
  | nil =>
    intro s os s' _ _ t ht
    cases ht
  | cons u ts ih =>
    intro s os s' hsnap hok t ht
    cases hstep : migrateStep snapshot s u with
    | error e =>
      rw [migrateLoop_cons_error ts hstep] at hok
      simp at hok
    | ok p =>
      obtain ⟨o, s₁⟩ := p
      rw [migrateLoop_cons_ok ts hstep] at hok
      cases hrec : migrateLoop snapshot s₁ ts with
      | aborted os₂ s₂ e =>
        rw [hrec] at hok
        simp [prependOutcome] at hok
      | ok os₂ s₂ =>
        rw [hrec] at hok
        simp only [prependOutcome, MigResult.ok.injEq] at hok
        obtain ⟨hos, hss⟩ := hok
        have hT : listTables s₁ = listTables s := (schemaFrame_step hstep).1
        have hsnap₁ : snapshot = listTables s₁ := by rw [hsnap, hT]
        have hfr : SchemaFrame s₁ s' := by
          have hframe := schemaFrame_loop snapshot s₁ ts
          rw [hrec] at hframe
          rw [← hss]
          exact hframe
        rcases List.mem_cons.mp ht with rfl | hts
        · by_cases hu : t ∈ snapshot
          · by_cases hcol : "project_id" ∈ colNames s t
            · exact Or.inr (colNames_subset_of_frame hfr t
                (by
                  rw [migrateStep_present hu hcol] at hstep
                  simp only [Except.ok.injEq, Prod.mk.injEq] at hstep
                  rw [← hstep.2]
                  exact hcol))
            · by_cases hrej : (t, "project_id") ∈ s.rejects
              · rw [migrateStep_reject hu hcol hrej] at hstep
                cases hstep
              · rw [migrateStep_add hu hcol hrej] at hstep
                simp only [Except.ok.injEq, Prod.mk.injEq] at hstep
                refine Or.inr (colNames_subset_of_frame hfr t ?_)
                rw [← hstep.2, colNames_commit]
                have hmem : t ∈ listTables s := by
                  rw [← hsnap]
                  exact hu
                simp [hmem, projectIdCol]
          · exact Or.inl hu
        · exact ih s₁ os₂ s' hsnap₁ (by rw [hrec, hss]) t hts

/-- On a store where every requirement is already satisfied, the loop
mutates nothing and reports no `added` outcome. -/
lemma migrateLoop_noop {snapshot : List String} (L : List String) :
    ∀ s : Store,
      (∀ t ∈ L, t ∉ snapshot ∨ "project_id" ∈ colNames s t) →
      ∃ os, migrateLoop snapshot s L = MigResult.ok os s ∧
        ∀ o ∈ os, o = Outcome.alreadyPresent ∨ o = Outcome.tableAbsent := by
  induction L with
  | nil =>
    intro s _
    exact ⟨[], rfl, by simp⟩
  | cons u ts ih =>
    intro s h
    obtain ⟨os, hos, hall⟩ := ih s (fun t ht => h t (List.mem_cons_of_mem u ht))
    rcases h u (List.mem_cons_self u ts) with hu | hcol
    · refine ⟨Outcome.tableAbsent :: os, ?_, ?_⟩
      · rw [migrateLoop_cons_ok ts (migrateStep_absent hu), hos]
        rfl
      · intro o ho
        rcases List.mem_cons.mp ho with rfl | ho'
        · exact Or.inr rfl
        · exact hall o ho'
    · by_cases hu : u ∈ snapshot
      · refine ⟨Outcome.alreadyPresent :: os, ?_, ?_⟩
        · rw [migrateLoop_cons_ok ts (migrateStep_present hu hcol), hos]
          rfl
        · intro o ho
          rcases List.mem_cons.mp ho with rfl | ho'
          · exact Or.inl rfl
          · exact hall o ho'
      · refine ⟨Outcome.tableAbsent :: os, ?_, ?_⟩
        · rw [migrateLoop_cons_ok ts (migrateStep_absent hu), hos]
          rfl
        · intro o ho
          rcases List.mem_cons.mp ho with rfl | ho'
          · exact Or.inr rfl
          · exact hall o ho'

/-- For a run with no engine rejections, a requirement table that exists
and lacks `project_id` ends the run with exactly the declared column
appended (to its schema and, via the default, to its rows). -/
lemma migrateLoop_final_added {snapshot : List String} {t : String} (L : List String) :
    ∀ s : Store, L.Nodup → t ∈ L → s.rejects = [] → t ∈ snapshot →
      "project_id" ∉ colNames s t →
      findTable ((migrateLoop snapshot s L).finalStore) t
        = (findTable s t).map (fun tb => addColumnToTable tb projectIdCol) := by
  induction L with
  | nil =>
    intro s _ hmem _ _ _
    cases hmem
  | cons u ts ih =>
    intro s hnd hmem hrej hsnap hcol
    have hndts : ts.Nodup := (List.nodup_cons.mp hnd).2
    rcases List.mem_cons.mp hmem with rfl | hts
    · have hnorej : (t, "project_id") ∉ s.rejects := by
        rw [hrej]
        simp
      have hstep := migrateStep_add hsnap hcol hnorej
      rw [migrateLoop_cons_ok ts hstep, prependOutcome_finalStore]
      have htts : t ∉ ts := (List.nodup_cons.mp hnd).1
      rw [migrateLoop_findTable_notmem ts htts _, findTable_commit]
      cases hf : findTable s t with
      | none => rfl
      | some tb =>
        have hn := findTable_name hf
        simp [hn]
    · have hne : t ≠ u := by
        intro he
        exact (List.nodup_cons.mp hnd).1 (he ▸ hts)
      by_cases hu : u ∈ snapshot
      · by_cases hcolu : "project_id" ∈ colNames s u
        · rw [migrateLoop_cons_ok ts (migrateStep_present hu hcolu), prependOutcome_finalStore]
          exact ih s hndts hts hrej hsnap hcol
        · have hnoreju : (u, "project_id") ∉ s.rejects := by
            rw [hrej]
            simp
          have hstep := migrateStep_add hu hcolu hnoreju
          rw [migrateLoop_cons_ok ts hstep, prependOutcome_finalStore]
          have hft : findTable (commitAddColumn s u projectIdCol) t = findTable s t :=
            migrateStep_findTable_other hstep hne
          have hcn : colNames (commitAddColumn s u projectIdCol) t = colNames s t := by
            unfold colNames pragmaTableInfo
            rw [hft]
          rw [ih (commitAddColumn s u projectIdCol) hndts hts
            (by rw [rejects_commit, hrej]) hsnap (by rw [hcn]; exact hcol), hft]
      · rw [migrateLoop_cons_ok ts (migrateStep_absent hu), prependOutcome_finalStore]
        exact ih s hndts hts hrej hsnap hcol

/-! Congruence: the migration's decisions read only the schema (and the
engine's rejection behaviour), never row contents. -/

lemma schemaEq_commit {s₁ s₂ : Store} (h : SchemaEq s₁ s₂) (t : String) (c : Column) :
    SchemaEq (commitAddColumn s₁ t c) (commitAddColumn s₂ t c) := by
  obtain ⟨hT, hR, hC⟩ := h
  refine ⟨?_, ?_, ?_⟩
  · rw [listTables_commit, listTables_commit, hT]
  · rw [rejects_commit, rejects_commit, hR]
  · intro u
    rw [pragmaTableInfo_commit, pragmaTableInfo_commit, hT, hC u]

lemma migrateStep_congr {snapshot : List String} {s₁ s₂ : Store} (t : String)
    (h : SchemaEq s₁ s₂) :
    (∃ e, migrateStep snapshot s₁ t = Except.error e ∧
      migrateStep snapshot s₂ t = Except.error e) ∨
    (∃ o s₁' s₂', migrateStep snapshot s₁ t = Except.ok (o, s₁') ∧
      migrateStep snapshot s₂ t = Except.ok (o, s₂') ∧ SchemaEq s₁' s₂') := by
  obtain ⟨hT, hR, hC⟩ := h
  have hcols : colNames s₁ t = colNames s₂ t := by
    unfold colNames
    rw [hC t]
  by_cases h1 : t ∈ snapshot
  · by_cases h2 : "project_id" ∈ colNames s₁ t
    · refine Or.inr ⟨Outcome.alreadyPresent, s₁, s₂, migrateStep_present h1 h2,
        migrateStep_present h1 (by rw [← hcols]; exact h2), hT, hR, hC⟩
    · by_cases h3 : (t, "project_id") ∈ s₁.rejects
      · refine Or.inl ⟨MigErr.schemaChangeRejected, migrateStep_reject h1 h2 h3,
          migrateStep_reject h1 (by rw [← hcols]; exact h2) (by rw [← hR]; exact h3)⟩
      · refine Or.inr ⟨Outcome.added, _, _, migrateStep_add h1 h2 h3,
          migrateStep_add h1 (by rw [← hcols]; exact h2) (by rw [← hR]; exact h3),
          schemaEq_commit ⟨hT, hR, hC⟩ t projectIdCol⟩
  · exact Or.inr ⟨Outcome.tableAbsent, s₁, s₂, migrateStep_absent h1,
      migrateStep_absent h1, hT, hR, hC⟩

lemma migrateLoop_congr {snapshot : List String} (L : List String) :
    ∀ {s₁ s₂ : Store}, SchemaEq s₁ s₂ →
      (migrateLoop snapshot s₁ L).outcomes = (migrateLoop snapshot s₂ L).outcomes ∧
      SchemaEq (migrateLoop snapshot s₁ L).finalStore (migrateLoop snapshot s₂ L).finalStore ∧
      (migrateLoop snapshot s₁ L).connClosed = (migrateLoop snapshot s₂ L).connClosed := by
  induction L with
  | nil =>
    intro s₁ s₂ h
    exact ⟨rfl, h, rfl⟩
  | cons t ts ih =>
    intro s₁ s₂ h
    rcases migrateStep_congr t h with ⟨e, he₁, he₂⟩ | ⟨o, s₁', s₂', ho₁, ho₂, h'⟩
    · rw [migrateLoop_cons_error ts he₁, migrateLoop_cons_error ts he₂]
      exact ⟨rfl, h, rfl⟩
    · rw [migrateLoop_cons_ok ts ho₁, migrateLoop_cons_ok ts ho₂,
        prependOutcome_outcomes, prependOutcome_outcomes,
        prependOutcome_finalStore, prependOutcome_finalStore,
        prependOutcome_connClosed, prependOutcome_connClosed]
      obtain ⟨hos, hst, hcc⟩ := ih h'
      exact ⟨by rw [hos], hst, hcc⟩

/-- Reading a cell through an explicit table, column index and row. -/
lemma readCell_eq {s : Store} {t cname : String} {tb : Table}
    (hf : findTable s t = some tb)
    {i : Nat} (hi : tb.cols.findIdx? (fun c => c.name = cname) = some i)
    {j : Nat} {r : List (Option String)} (hr : tb.rows.get? j = some r) :
    readCell s t j cname = r.get? i := by
  simp only [readCell, hf, hi, hr]

/-- `check_schema.py` on a store with no `memories` table: the count raises
and the run aborts. -/
lemma check_schema_of_none (s : Store) (hf : findTable s "memories" = none) :
    check_schema s = CheckResult.aborted MigErr.notFound := by
  simp only [check_schema, countRowsStmt, hf]

/-- `check_schema.py` on a store whose `memories` table exists: the run
completes with the catalog snapshot and the row count. -/
lemma check_schema_of_some (s : Store) (tb : Table) (hf : findTable s "memories" = some tb) :
    check_schema s = CheckResult.ok (listTables s)
      ((listTables s).map (fun u => (u, pragmaTableInfo s u))) tb.rows.length := by
  simp only [check_schema, countRowsStmt, hf]

/-! The claims. -/

/-- C1: for every requirement in the migration's fixed list, processed in
input order, the executor emits exactly one of three outcomes: a table
missing from the snapshot is skipped as `table-absent` with no error; a
table whose columns already contain the target name gets `already-present`
with no mutation; a table lacking the column gets exactly one additive
schema change — the declared `project_id TEXT DEFAULT 'global'` column —
committed before the next requirement is considered (the rest of the loop
runs on the committed store). -/
theorem C1_per_requirement_outcomes (snapshot : List String) (s : Store)
    (t : String) (ts : List String)
    (hrej : (t, "project_id") ∉ s.rejects) :
    migrate s = migrateLoop (listTables s) s tables_needing_project_id ∧
    (t ∉ snapshot →
      migrateLoop snapshot s (t :: ts)
        = prependOutcome Outcome.tableAbsent (migrateLoop snapshot s ts)) ∧
    (t ∈ snapshot → "project_id" ∈ colNames s t →
      migrateLoop snapshot s (t :: ts)
        = prependOutcome Outcome.alreadyPresent (migrateLoop snapshot s ts)) ∧
    (t ∈ snapshot → "project_id" ∉ colNames s t →
      migrateLoop snapshot s (t :: ts)
        = prependOutcome Outcome.added
            (migrateLoop snapshot (commitAddColumn s t projectIdCol) ts)) := by
  refine ⟨rfl, ?_, ?_, ?_⟩
  · intro h
    exact migrateLoop_cons_ok ts (migrateStep_absent h)
  · intro h1 h2
    exact migrateLoop_cons_ok ts (migrateStep_present h1 h2)
  · intro h1 h2
    exact migrateLoop_cons_ok ts (migrateStep_add h1 h2 hrej)

/-- C2: a run that completed normally is idempotent — running the full
requirement list again on its result leaves the store exactly as it was and
reports only `already-present` or `table-absent` outcomes, never `added`. -/
theorem C2_idempotent (s : Store) (os : List Outcome) (s' : Store)
    (h : migrate s = MigResult.ok os s') :
    ∃ os', migrate s' = MigResult.ok os' s' ∧
      ∀ o ∈ os', o = Outcome.alreadyPresent ∨ o = Outcome.tableAbsent := by
  unfold migrate at h ⊢
  have hsat := migrateLoop_ok_satisfied tables_needing_project_id s os s' rfl h
  have hfr : SchemaFrame s s' := by
    have hframe := schemaFrame_loop (listTables s) s tables_needing_project_id
    rw [h] at hframe
    exact hframe
  rw [hfr.1]
  apply migrateLoop_noop
  intro t ht
  exact hsat t ht

/-- C3 counterexample: on a store whose engine rejects adding `project_id`
to `memories` while `entities` still lacks the column, the run aborts with
the raised error, records no per-requirement outcome at all (in particular
no `failed` outcome), and never attempts the remaining requirement —
`entities` is left without the column. This refutes the claim that the
failure is recorded per-requirement and the remaining requirements are
still attempted. -/
theorem C3_counterexample :
    migrate rejectStore = MigResult.aborted [] rejectStore MigErr.schemaChangeRejected ∧
    "entities" ∈ listTables rejectStore ∧
    "project_id" ∉ colNames rejectStore "entities" ∧
    "project_id" ∉ colNames ((migrate rejectStore).finalStore) "entities" ∧
    (migrate rejectStore).outcomes = [] := by decide

/-- C3 (amended): if the store rejects the column addition for a
requirement, the exception propagates out of the loop at that requirement:
the run aborts immediately with no outcome recorded for it, the remaining
requirements are not attempted, and the store is left at the state already
committed. -/
theorem C3_amended_abort (snapshot : List String) (s : Store) (t : String)
    (ts : List String)
    (h1 : t ∈ snapshot) (h2 : "project_id" ∉ colNames s t)
    (h3 : (t, "project_id") ∈ s.rejects) :
    migrateLoop snapshot s (t :: ts)
      = MigResult.aborted [] s MigErr.schemaChangeRejected :=
  migrateLoop_cons_error ts (migrateStep_reject h1 h2 h3)

/-- C4: after the migration adds `project_id` to an existing table, every
row that existed before the run reads back exactly the default `'global'`
on that column — never an unintended null. -/
theorem C4_default_propagation (s : Store) (t : String)
    (hwf : Store.WF s) (hrej : s.rejects = [])
    (hreq : t ∈ tables_needing_project_id) (hex : t ∈ listTables s)
    (hcol : "project_id" ∉ colNames s t)
    (j : Nat) (hj : j < numRows s t) :
    readCell ((migrate s).finalStore) t j "project_id" = some (some "global") := by
  have hnd : tables_needing_project_id.Nodup := by decide
  obtain ⟨tb, hf⟩ := findTable_isSome_of_mem hex
  have hfin := @migrateLoop_final_added (listTables s) t
    tables_needing_project_id s hnd hreq hrej hex hcol
  rw [hf] at hfin
  simp only [Option.map_some'] at hfin
  have hnone : tb.cols.findIdx? (fun c => c.name = "project_id") = none := by
    rw [List.findIdx?_eq_none_iff]
    intro c hc
    simp only [decide_eq_false_iff_not]
    intro heq
    apply hcol
    unfold colNames pragmaTableInfo
    rw [hf]
    exact heq ▸ List.mem_map_of_mem _ hc
  have hidx : (addColumnToTable tb projectIdCol).cols.findIdx?
      (fun c => c.name = "project_id") = some tb.cols.length := by
    show (tb.cols ++ [projectIdCol]).findIdx? _ = _
    rw [List.findIdx?_append, hnone]
    simp [projectIdCol]
  have hjlen : j < tb.rows.length := by
    have hrows : rowsOf s t = tb.rows := by
      unfold rowsOf
      rw [hf]
    rw [numRows, hrows] at hj
    exact hj
  have hrow : (addColumnToTable tb projectIdCol).rows.get? j
      = some (tb.rows.get ⟨j, hjlen⟩ ++ [some "global"]) := by
    show (tb.rows.map (fun r => r ++ [projectIdCol.dflt])).get? j = _
    rw [List.get?_map, List.get?_eq_get hjlen]
    rfl
  unfold migrate
  rw [readCell_eq hfin hidx hrow]
  have hrlen : (tb.rows.get ⟨j, hjlen⟩).length = tb.cols.length :=
    hwf tb (findTable_mem hf) _ (List.get_mem tb.rows j hjlen)
  rw [← hrlen]
  exact List.get?_concat_length _ _

/-- C5: a run never alters or removes an existing column, never deletes an
existing row, and leaves every table's row count unchanged — for every
table the old column list is a prefix of the new one, the rows are in
one-to-one order-preserving correspondence with each old row a prefix of
its successor, and the table catalog is unchanged. Holds on every exit
path, aborted runs included. -/
theorem C5_additive_frame (s : Store) (t : String) :
    listTables ((migrate s).finalStore) = listTables s ∧
    pragmaTableInfo s t <+: pragmaTableInfo ((migrate s).finalStore) t ∧
    List.Forall₂ (fun r r' => r <+: r') (rowsOf s t) (rowsOf ((migrate s).finalStore) t) ∧
    numRows ((migrate s).finalStore) t = numRows s t := by
  have hfr := schemaFrame_loop (listTables s) s tables_needing_project_id
  refine ⟨hfr.1, hfr.2.2.1 t, hfr.2.2.2 t, ?_⟩
  show (rowsOf ((migrate s).finalStore) t).length = (rowsOf s t).length
  exact ((hfr.2.2.2 t).length_eq).symm

/-- C6: the migration never creates a table — the table catalog after any
run (normal or aborted) is exactly the catalog before it, so a requirement
whose table is absent leaves the set of tables unchanged. -/
theorem C6_no_table_created (s : Store) :
    listTables ((migrate s).finalStore) = listTables s :=
  (schemaFrame_loop (listTables s) s tables_needing_project_id).1

/-- C7 counterexample: a `check_schema.py` run on a store with no
`memories` table terminates with a store error, and the connection is not
closed on that exit path; likewise a `migrate_db.py` run aborted by a
rejected schema change leaves the connection unclosed. This refutes the
claim that the handle is released on every exit path including error
paths. -/
theorem C7_counterexample :
    check_schema noMemoriesStore = CheckResult.aborted MigErr.notFound ∧
    (check_schema noMemoriesStore).connClosed = false ∧
    migrate rejectStore = MigResult.aborted [] rejectStore MigErr.schemaChangeRejected ∧
    (migrate rejectStore).connClosed = false := by decide

/-- C7 (amended): the store connection is closed exactly on normal
completion — a `migrate_db.py` run closes it iff it ran to completion, and
a `check_schema.py` run closes it iff the `memories` table existed (so the
final count succeeded); on error terminations the close is skipped. -/
theorem C7_amended_close_on_success (s : Store) :
    ((migrate s).connClosed = true ↔ ∃ os s', migrate s = MigResult.ok os s') ∧
    ((check_schema s).connClosed = true ↔ "memories" ∈ listTables s) := by
  constructor
  · constructor
    · intro hc
      cases hm : migrate s with
      | ok os s' => exact ⟨os, s', rfl⟩
      | aborted os s' e =>
        rw [hm] at hc
        cases hc
    · rintro ⟨os, s', hm⟩
      rw [hm]
      rfl
  · cases hf : findTable s "memories" with
    | none =>
      have hnot := findTable_eq_none_iff.mp hf
      constructor
      · intro hc
        rw [check_schema_of_none s hf] at hc
        cases hc
      · intro hmem
        exact absurd hmem hnot
    | some tb =>
      have hmem := mem_listTables_of_findTable hf
      constructor
      · intro _
        exact hmem
      · intro _
        rw [check_schema_of_some s tb hf]
        rfl

/-- C8: `SELECT COUNT(*)` returns the row count of an existing table, fails
with the `no such table` error when the table is absent at call time, and
in `check_schema.py` that error propagates out of the run rather than
being skipped. -/
theorem C8_countRows (s : Store) (t : String) :
    (t ∈ listTables s → countRowsStmt s t = Except.ok (numRows s t)) ∧
    (t ∉ listTables s → countRowsStmt s t = Except.error MigErr.notFound) ∧
    ("memories" ∉ listTables s → check_schema s = CheckResult.aborted MigErr.notFound) := by
  refine ⟨?_, ?_, ?_⟩
  · intro h
    obtain ⟨tb, hf⟩ := findTable_isSome_of_mem h
    have hn : numRows s t = tb.rows.length := by
      unfold numRows rowsOf
      rw [hf]
    rw [hn]
    simp [countRowsStmt, hf]
  · intro h
    simp [countRowsStmt, findTable_eq_none_iff.mpr h]
  · intro h
    exact check_schema_of_none s (findTable_eq_none_iff.mpr h)

/-- C9: the `already-present` decision is made solely by column name — a
table whose columns contain any column named `project_id`, of whatever
type, nullability or default, is reported `already-present` by its step
without mutation, and the whole run leaves that table (schema, defaults
and rows) exactly as it was: nothing is verified or repaired. -/
theorem C9_present_by_name_only (s : Store) (t : String) (c : Column)
    (hc : c ∈ pragmaTableInfo s t) (hname : c.name = "project_id") :
    (∀ snapshot, t ∈ snapshot →
      migrateStep snapshot s t = Except.ok (Outcome.alreadyPresent, s)) ∧
    findTable ((migrate s).finalStore) t = findTable s t := by
  have hmem : "project_id" ∈ colNames s t := by
    unfold colNames
    exact hname ▸ List.mem_map_of_mem _ hc
  refine ⟨fun snapshot hs => migrateStep_present hs hmem, ?_⟩
  exact migrateLoop_findTable_present tables_needing_project_id s hmem

/-- C10: the migration is deterministic in the schema — two runs on stores
that agree on the table catalog, on every table's column descriptors, and
on the engine's rejection behaviour (row contents may differ arbitrarily)
emit identical outcome sequences, end with identical final schemas, and
reach the close on the same condition. -/
theorem C10_schema_determinism (s₁ s₂ : Store)
    (hT : listTables s₁ = listTables s₂)
    (hC : ∀ t, pragmaTableInfo s₁ t = pragmaTableInfo s₂ t)
    (hR : s₁.rejects = s₂.rejects) :
    (migrate s₁).outcomes = (migrate s₂).outcomes ∧
    listTables ((migrate s₁).finalStore) = listTables ((migrate s₂).finalStore) ∧
    (∀ t, pragmaTableInfo ((migrate s₁).finalStore) t
      = pragmaTableInfo ((migrate s₂).finalStore) t) ∧
    (migrate s₁).connClosed = (migrate s₂).connClosed := by
  unfold migrate
  rw [hT]
  have h := @migrateLoop_congr (listTables s₂)
    tables_needing_project_id s₁ s₂ ⟨hT, hR, hC⟩
  exact ⟨h.1, h.2.1.1, h.2.1.2.2, h.2.2⟩

/-! Witnesses: each hypothesis-bearing claim theorem applied at a concrete
store. -/

/-- Witness for C1: on `demoStore`, the requirement for `memories` takes
the `added` branch and the loop continues on the committed store. -/
theorem C1_witness :
    (("memories", "project_id") ∉ demoStore.rejects) ∧
    migrateLoop ["memories"] demoStore ("memories" :: ["entities"])
      = prependOutcome Outcome.added
          (migrateLoop ["memories"] (commitAddColumn demoStore "memories" projectIdCol)
            ["entities"]) :=
  ⟨by decide,
    (C1_per_requirement_outcomes ["memories"] demoStore "memories" ["entities"]
      (by decide)).2.2.2 (by decide) (by decide)⟩

/-- Witness for C2: a completed run on `demoStore`, and the second run's
no-op guarantee on its result. -/
theorem C2_witness :
    migrate demoStore
      = MigResult.ok (migrate demoStore).outcomes (migrate demoStore).finalStore ∧
    (∃ os', migrate (migrate demoStore).finalStore
        = MigResult.ok os' (migrate demoStore).finalStore ∧
      ∀ o ∈ os', o = Outcome.alreadyPresent ∨ o = Outcome.tableAbsent) :=
  ⟨by decide,
    C2_idempotent demoStore (migrate demoStore).outcomes (migrate demoStore).finalStore
      (by decide)⟩

/-- Witness for the amended C3 at the rejecting store. -/
theorem C3_amended_witness :
    ("memories" ∈ ["memories", "entities"]) ∧
    ("project_id" ∉ colNames rejectStore "memories") ∧
    (("memories", "project_id") ∈ rejectStore.rejects) ∧
    migrateLoop ["memories", "entities"] rejectStore ("memories" :: ["entities"])
      = MigResult.aborted [] rejectStore MigErr.schemaChangeRejected :=
  ⟨by decide, by decide, by decide,
    C3_amended_abort ["memories", "entities"] rejectStore "memories" ["entities"]
      (by decide) (by decide) (by decide)⟩

/-- Witness for C4: the pre-existing row of `memories` reads back the
default after the run. -/
theorem C4_witness :
    Store.WF demoStore ∧ demoStore.rejects = [] ∧
    "memories" ∈ tables_needing_project_id ∧ "memories" ∈ listTables demoStore ∧
    "project_id" ∉ colNames demoStore "memories" ∧ 0 < numRows demoStore "memories" ∧
    readCell ((migrate demoStore).finalStore) "memories" 0 "project_id"
      = some (some "global") :=
  ⟨by unfold Store.WF; decide, rfl, by decide, by decide, by decide, by decide,
    C4_default_propagation demoStore "memories" (by unfold Store.WF; decide) rfl (by decide)
      (by decide) (by decide) 0 (by decide)⟩

/-- Witness for the amended C7 at a concrete store. -/
theorem C7_amended_witness :
    ((migrate demoStore).connClosed = true
      ↔ ∃ os s', migrate demoStore = MigResult.ok os s') ∧
    ((check_schema demoStore).connClosed = true ↔ "memories" ∈ listTables demoStore) :=
  C7_amended_close_on_success demoStore

/-- Witness for C8 on a store with `memories` (3 rows) and `edges`
(0 rows), and on a store lacking `memories`. -/
theorem C8_witness :
    "memories" ∈ listTables scenarioDStore ∧
    countRowsStmt scenarioDStore "memories" = Except.ok (numRows scenarioDStore "memories") ∧
    "scratchpad" ∉ listTables scenarioDStore ∧
    countRowsStmt scenarioDStore "scratchpad" = Except.error MigErr.notFound ∧
    check_schema noMemoriesStore = CheckResult.aborted MigErr.notFound :=
  ⟨by decide, (C8_countRows scenarioDStore "memories").1 (by decide),
    by decide, (C8_countRows scenarioDStore "scratchpad").2.1 (by decide),
    (C8_countRows noMemoriesStore "memories").2.2 (by decide)⟩

/-- Witness for C9: a `project_id` of the wrong type, nullability and
default still yields `already-present` and an untouched table. -/
theorem C9_witness :
    weirdPidCol ∈ pragmaTableInfo weirdStore "entities" ∧
    weirdPidCol.name = "project_id" ∧
    weirdPidCol.ctype ≠ "TEXT" ∧ weirdPidCol.notnull = true ∧
    weirdPidCol.dflt ≠ some "global" ∧
    migrateStep ["entities"] weirdStore "entities"
      = Except.ok (Outcome.alreadyPresent, weirdStore) ∧
    findTable ((migrate weirdStore).finalStore) "entities"
      = findTable weirdStore "entities" :=
  ⟨by decide, rfl, by decide, rfl, by decide,
    (C9_present_by_name_only weirdStore "entities" weirdPidCol (by decide) rfl).1
      ["entities"] (by decide),
    (C9_present_by_name_only weirdStore "entities" weirdPidCol (by decide) rfl).2⟩

/-- The two row-divergent stores agree on every table's descriptors. -/
lemma pragma_storeRows (t : String) :
    pragmaTableInfo storeRowsA t = pragmaTableInfo storeRowsB t := by
  by_cases h : "memories" = t
  · subst h
    rfl
  · unfold pragmaTableInfo findTable storeRowsA storeRowsB
    rw [List.find?_cons_of_neg _ (by simpa using h),
      List.find?_cons_of_neg _ (by simpa using h)]

/-- Witness for C10: two stores with identical schema but different row
contents produce identical outcome sequences. -/
theorem C10_witness :
    rowsOf storeRowsA "memories" ≠ rowsOf storeRowsB "memories" ∧
    listTables storeRowsA = listTables storeRowsB ∧
    storeRowsA.rejects = storeRowsB.rejects ∧
    (migrate storeRowsA).outcomes = (migrate storeRowsB).outcomes :=
  ⟨by decide, by decide, rfl,
    (C10_schema_determinism storeRowsA storeRowsB (by decide) pragma_storeRows rfl).1⟩

end JustMemory
